import Mathlib

/-!
Verification of the sleepyTesting orchestration core.

This file gives a shallow embedding of the core data structures and
operations of the sleepyTesting repository (event bus, agent lifecycle
hub, driver pool, pattern store, tool registry, step-ordering
validation) and proves or refutes the specified properties about them.

Python dictionaries are modelled as insertion-ordered association
lists; Python object identities (driver instances, callbacks, tools)
are modelled as natural-number handles; exceptions are modelled as
explicit error values returned next to the (possibly updated) state.
-/

namespace SleepyTesting

/-- Lookup in an insertion-ordered association list, returning the value
of the first entry whose key matches (Python dict read access). -/
def assocLookup {κ α : Type} [DecidableEq κ] : List (κ × α) → κ → Option α
  | [], _ => none
  | (k, v) :: rest, key => if k = key then some v else assocLookup rest key

/-- Keyed update of an insertion-ordered association list: replace the
value of the first entry whose key matches, or append a new entry at the
end (Python dict write access, which preserves insertion order). -/
def assocSet {κ α : Type} [DecidableEq κ] : List (κ × α) → κ → α → List (κ × α)
  | [], key, v => [(key, v)]
  | (k, w) :: rest, key, v =>
      if k = key then (k, v) :: rest else (k, w) :: assocSet rest key v

/-- Keyed deletion from an insertion-ordered association list: drop the
first entry whose key matches (Python del on a dict key). -/
def assocDelete {κ α : Type} [DecidableEq κ] : List (κ × α) → κ → List (κ × α)
  | [], _ => []
  | (k, w) :: rest, key => if k = key then rest else (k, w) :: assocDelete rest key

/-! ## Event bus (src/sleepyTesting/core/event_bus.py)

Callbacks are modelled as natural-number identities; what a callback
does when invoked is supplied externally as a function from callback
identity and payload to an exception-or-unit outcome. -/

/-- Event carrying a type tag and a payload (class Event in event_bus.py). -/
structure Event (π : Type) where
  eventType : String
  payload : π
deriving DecidableEq

/-- State of the event bus: the subscriber table mapping an event type to
the ordered list of subscribed callbacks (EventBus._subscribers). -/
structure EventBus where
  subscribers : List (String × List Nat)
deriving DecidableEq

/-- The subscriber table keys are unique, as they are for a Python dict. -/
def BusWF (bus : EventBus) : Prop :=
  (bus.subscribers.map Prod.fst).Nodup

/-- EventBus.subscribe: create the (empty) list for a fresh event type if
needed, then append the callback to the list for that event type. -/
def subscribe (bus : EventBus) (eventType : String) (callback : Nat) : EventBus :=
  match assocLookup bus.subscribers eventType with
  | none => ⟨bus.subscribers ++ [(eventType, [callback])]⟩
  | some hs => ⟨assocSet bus.subscribers eventType (hs ++ [callback])⟩

/-- EventBus.unsubscribe: returns the updated bus and an error message in
place of the ValueError raised by the Python code. If the event type has
no subscribers, or the callback is not among them, the call fails and the
table is left as it was; otherwise the first matching entry is removed
and the list for the type is deleted entirely when it becomes empty. -/
def unsubscribe (bus : EventBus) (eventType : String) (callback : Nat) :
    EventBus × Option String :=
  match assocLookup bus.subscribers eventType with
  | none => (bus, some ("No subscribers for event type: " ++ eventType))
  | some hs =>
      if callback ∈ hs then
        let hs2 := hs.erase callback
        if hs2 = [] then (⟨assocDelete bus.subscribers eventType⟩, none)
        else (⟨assocSet bus.subscribers eventType hs2⟩, none)
      else (bus, some ("Callback not subscribed to event type: " ++ eventType))

/-- The snapshot of the subscriber list taken by EventBus.publish under
the lock: the current list for the type, or the empty list. -/
def snapshotHandlers (bus : EventBus) (eventType : String) : List Nat :=
  (assocLookup bus.subscribers eventType).getD []

/-- The dispatch loop of EventBus.publish: invoke each handler in
snapshot order; an exception raised by a handler is caught (and logged),
so the remaining handlers still run. The returned log records, in
invocation order, each callback together with its outcome. -/
def runHandlers {π : Type} (hrun : Nat → π → Except String Unit) :
    List Nat → π → List (Nat × Except String Unit)
  | [], _ => []
  | h :: rest, payload =>
      match hrun h payload with
      | Except.ok u => (h, Except.ok u) :: runHandlers hrun rest payload
      | Except.error e => (h, Except.error e) :: runHandlers hrun rest payload

/-- EventBus.publish: snapshot the subscriber list for the event type,
then invoke every handler of the snapshot outside the lock. The bus
state is returned (unchanged) next to the invocation log; the function
is total, reflecting that publish never propagates handler failures. -/
def publish {π : Type} (hrun : Nat → π → Except String Unit) (bus : EventBus)
    (e : Event π) : EventBus × List (Nat × Except String Unit) :=
  (bus, runHandlers hrun (snapshotHandlers bus e.eventType) e.payload)

/-! ## Tool registry (src/sleepyTesting/tools/tool_registry.py)

Tool instances are modelled as natural-number identities; the isinstance
check on BaseTool is enforced by typing in the embedding. -/

/-- State of the tool registry (ToolRegistry._tools). -/
structure ToolRegistry where
  tools : List (String × Nat)
deriving DecidableEq

/-- ToolRegistry.register_tool: registering a name that is already present
raises a ValueError (returned here as an error message) and leaves the
table unchanged; otherwise the (name, tool) entry is added. -/
def registerTool (reg : ToolRegistry) (name : String) (tool : Nat) :
    ToolRegistry × Option String :=
  if (assocLookup reg.tools name).isSome then
    (reg, some ("Tool " ++ name ++ " is already registered"))
  else
    (⟨assocSet reg.tools name tool⟩, none)

/-! ## Pattern store (src/sleepyTesting/agents/memory.py) -/

/-- A single UI operation step (class UIStep in agents/decomposer.py). -/
structure UIStep where
  action : String
  elementId : Option String := none
  text : Option String := none
  coordinates : Option (Int × Int) := none
  description : String
  platform : Option String := none
  deviceId : Option String := none
deriving DecidableEq

/-- Result of verifying an executed step; the pattern store only reads
the passed flag (class AssertionResult in assertions). -/
structure AssertionResult where
  step : UIStep
  passed : Bool
deriving DecidableEq

/-- Python truthiness applied by the expression x or "default" on an
optional string: both None and the empty string fall back. -/
def pyOrDefault : Option String → String
  | none => "default"
  | some s => if s = "" then "default" else s

/-- Rendering of the coordinates value inside the f-string building the
step key: None prints as None, a pair prints in tuple form. -/
def renderCoordinates : Option (Int × Int) → String
  | none => "None"
  | some (a, b) => "(" ++ toString a ++ ", " ++ toString b ++ ")"

/-- Python truthiness applied by the expression element_id or coordinates:
a missing or empty element id falls back to the coordinates value. -/
def renderTarget (elementId : Option String) (coordinates : Option (Int × Int)) : String :=
  match elementId with
  | some s => if s = "" then renderCoordinates coordinates else s
  | none => renderCoordinates coordinates

/-- The device-aware step key built identically in MemoryAgent.store_step
and MemoryAgent.optimize_steps. -/
def stepKey (step : UIStep) : String :=
  pyOrDefault step.platform ++ ":" ++ pyOrDefault step.deviceId ++ ":" ++
    step.action ++ ":" ++ renderTarget step.elementId step.coordinates

/-- A history record stored per step key by MemoryAgent.store_step. -/
structure HistoryEntry where
  description : String
  platform : Option String
  deviceId : Option String
  successCount : Nat
  lastSuccess : Bool
deriving DecidableEq

/-- State of the pattern store (MemoryAgent.history). -/
structure MemoryAgent where
  history : List (String × HistoryEntry)
deriving DecidableEq

/-- MemoryAgent.store_step: a failed step is ignored; a passed step
upserts the entry for its key, incrementing the success count found in
the previous entry (or starting from zero) and marking last success. -/
def storeStep (mem : MemoryAgent) (step : UIStep) (result : AssertionResult) :
    MemoryAgent :=
  if !result.passed then mem
  else
    let key := stepKey step
    let prevCount := ((assocLookup mem.history key).map HistoryEntry.successCount).getD 0
    ⟨assocSet mem.history key
      ⟨step.description, step.platform, step.deviceId, prevCount + 1, true⟩⟩

/-- MemoryAgent.optimize_steps: substitute each step whose key has a
history entry with positive success count and a successful last outcome
by a step rebuilt from the stored description, platform and device id
(action, element id and coordinates taken from the input step; the text
field of the rebuilt step defaults to None); other steps pass through. -/
def optimizeSteps (mem : MemoryAgent) : List UIStep → List UIStep
  | [] => []
  | step :: rest =>
      match assocLookup mem.history (stepKey step) with
      | some pattern =>
          if 0 < pattern.successCount ∧ pattern.lastSuccess = true then
            { action := step.action, elementId := step.elementId,
              coordinates := step.coordinates, text := none,
              description := pattern.description, platform := pattern.platform,
              deviceId := pattern.deviceId } :: optimizeSteps mem rest
          else step :: optimizeSteps mem rest
      | none => step :: optimizeSteps mem rest

/-! ## Driver pool (src/sleepyTesting/agents/controller.py)

Driver instances are modelled as natural-number handles; the factory
call get_driver() constructs a fresh instance, modelled by consuming the
next fresh handle. The platform environment override and the
device-specific connect call are side effects on the driver collaborator
and do not touch the pool state. -/

/-- State of the driver pool: the cache mapping a (platform, device id)
key to its driver handle (ControllerAgent.drivers), together with the
next fresh handle standing for the next new driver instance. -/
structure DriverPool where
  drivers : List ((Option String × Option String) × Nat)
  nextId : Nat
deriving DecidableEq

/-- Driver construction in ControllerAgent.get_or_create_driver: build a
fresh driver via the factory and cache it under the key. -/
def createDriver (pool : DriverPool) (key : Option String × Option String) :
    Nat × DriverPool :=
  (pool.nextId, ⟨assocSet pool.drivers key pool.nextId, pool.nextId + 1⟩)

/-- ControllerAgent.get_or_create_driver: return the cached driver for
the exact key if present; otherwise, for the default key, return the
pre-registered default driver when one exists; otherwise create, cache
and return a fresh driver. -/
def getOrCreateDriver (pool : DriverPool) (platform deviceId : Option String) :
    Nat × DriverPool :=
  let key := (platform, deviceId)
  match assocLookup pool.drivers key with
  | some d => (d, pool)
  | none =>
      if key = ((none : Option String), (none : Option String)) then
        match assocLookup pool.drivers ((none : Option String), (none : Option String)) with
        | some d0 => (d0, pool)
        | none => createDriver pool key
      else createDriver pool key

/-- Well-formedness of the driver pool: keys are unique (a Python dict),
handles are pairwise distinct (each came from a separate construction)
and every cached handle precedes the next fresh one. -/
def PoolWF (pool : DriverPool) : Prop :=
  (pool.drivers.map Prod.fst).Nodup ∧
  (pool.drivers.map Prod.snd).Nodup ∧
  ∀ kv ∈ pool.drivers, kv.2 < pool.nextId

/-! ## Step-ordering validation (src/sleepyTesting/core/llm.py)

The embedding covers the domain ordering check performed at the end of
LLMClient.generate_steps over the already-validated steps. -/

/-- A validated step record as produced by LLMClient.generate_steps
(class UIStep in core/llm.py); parameters carry opaque extra data. -/
structure LlmStep where
  action : String
  target : String
  platform : String
  deviceId : Option String := none
  parameters : List (String × String) := []
  description : String := ""
deriving DecidableEq

/-- The configured set of actions requiring prior authentication
(actions_requiring_auth in LLMClient.generate_steps). -/
def actionsRequiringAuth : List String := ["send_message", "check_notifications"]

/-- The scan loop of the ordering check: walk the steps in order keeping
a logged-in flag; a login action sets the flag; an action requiring
authentication seen while the flag is down fails with the index of that
step. Returns the offending index, or none when the check passes. -/
def authScan : List LlmStep → Bool → Nat → Option Nat
  | [], _, _ => none
  | s :: rest, loggedIn, i =>
      if s.action = "login" then authScan rest true (i + 1)
      else if s.action ∈ actionsRequiringAuth ∧ loggedIn = false then some i
      else authScan rest loggedIn (i + 1)

/-- The ordering check over a whole validated batch, starting logged out
at index zero. -/
def checkAuthOrder (steps : List LlmStep) : Option Nat :=
  authScan steps false 0

/-- A step at index i of the batch violates the ordering rule when its
action requires prior authentication and no step before it is a login. -/
def OffendingAt (steps : List LlmStep) (i : Nat) : Prop :=
  (∃ s, steps[i]? = some s ∧ s.action ∈ actionsRequiringAuth) ∧
  ∀ k, k < i → ∀ s, steps[k]? = some s → s.action ≠ "login"

/-- A concrete generated step whose action requires authentication, used
to instantiate the ordering-rule scenario. -/
def cnStep : LlmStep :=
  { action := "check_notifications", target := "panel", platform := "android" }

/-- A concrete login step, used to instantiate the ordering-rule scenario. -/
def loginStep : LlmStep :=
  { action := "login", target := "form", platform := "android" }

/-! ## Agent lifecycle hub (src/sleepyTesting/agents/agent_hub.py)

The hub tracks one AgentInfo record per agent; the embedding follows one
record through the mutually recursive methods _update_agent_state,
_handle_agent_failure and _restart_agent. Wall-clock readings of
datetime.now() are supplied as a natural number; the success or failure
of each agent reconstruction attempt is supplied as a stream of booleans
consulted at an incrementing index; the fuel argument bounds the nesting
depth of the mutually recursive calls and leaves the record unchanged
when exhausted (any fuel beyond the retry budget is never exhausted). -/

/-- Lifecycle states of an agent (enum AgentState). -/
inductive AgentState where
  | initializing
  | ready
  | busy
  | error
  | shutdown
deriving DecidableEq

/-- Per-agent record tracked by the hub (dataclass AgentInfo); the id and
type fields are fixed per agent and omitted. -/
structure AgentInfo where
  state : AgentState
  lastHeartbeat : Nat
  errorCount : Nat
  retryCount : Nat
deriving DecidableEq

/-- The configured failure-handling constants ERROR_THRESHOLD and
MAX_RETRIES referenced by the hub. -/
structure HubCfg where
  errorThreshold : Nat
  maxRetries : Nat
deriving DecidableEq

/-- Selector for the three mutually recursive hub methods. -/
inductive HubCall where
  | update (st : AgentState)
  | handleFailure
  | restart
deriving DecidableEq

/-- The mutually recursive core of the hub, acting on one agent record.

The update branch is AgentHub._update_agent_state: set the new state,
refresh the heartbeat, and on a transition to error increment the error
count and enter failure handling once the count reaches the threshold.

The handleFailure branch is AgentHub._handle_agent_failure: while the
retry count is below the maximum, increment it and attempt a restart;
otherwise report permanent failure and transition to shutdown.

The restart branch is AgentHub._restart_agent: consult the next
reconstruction outcome; on success re-register the agent, which replaces
the record by a fresh initializing record (zero counters) moved to
ready, then clears the error count and moves to ready again; on failure
transition back to error, which re-enters the cycle above. -/
def hubCall (cfg : HubCfg) (ok : Nat → Bool) :
    Nat → HubCall → Nat → Nat → AgentInfo → AgentInfo × Nat
  | 0, _, _, t, info => (info, t)
  | fuel + 1, HubCall.update st, now, t, info =>
      let info1 : AgentInfo := { info with state := st, lastHeartbeat := now }
      if st = AgentState.error then
        let info2 : AgentInfo := { info1 with errorCount := info1.errorCount + 1 }
        if cfg.errorThreshold ≤ info2.errorCount then
          hubCall cfg ok fuel HubCall.handleFailure now t info2
        else (info2, t)
      else (info1, t)
  | fuel + 1, HubCall.handleFailure, now, t, info =>
      if info.retryCount < cfg.maxRetries then
        hubCall cfg ok fuel HubCall.restart now t
          { info with retryCount := info.retryCount + 1 }
      else
        hubCall cfg ok fuel (HubCall.update AgentState.shutdown) now t info
  | fuel + 1, HubCall.restart, now, t, info =>
      if ok t then
        let fresh : AgentInfo := ⟨AgentState.initializing, now, 0, 0⟩
        let r1 := hubCall cfg ok fuel (HubCall.update AgentState.ready) now (t + 1) fresh
        hubCall cfg ok fuel (HubCall.update AgentState.ready) now r1.2
          { r1.1 with errorCount := 0 }
      else
        hubCall cfg ok fuel (HubCall.update AgentState.error) now (t + 1) info

/-- The record produced by a transition into the error state before any
failure handling runs: state set to error, heartbeat refreshed, error
count incremented. -/
def errorBump (now : Nat) (info : AgentInfo) : AgentInfo :=
  { info with
    state := AgentState.error
    lastHeartbeat := now
    errorCount := info.errorCount + 1 }

/-- AgentHub._update_agent_state on one record. -/
def updateAgentState (cfg : HubCfg) (ok : Nat → Bool) (fuel now t : Nat)
    (st : AgentState) (info : AgentInfo) : AgentInfo × Nat :=
  hubCall cfg ok fuel (HubCall.update st) now t info

/-- AgentHub._handle_agent_failure on one record. -/
def handleAgentFailure (cfg : HubCfg) (ok : Nat → Bool) (fuel now t : Nat)
    (info : AgentInfo) : AgentInfo × Nat :=
  hubCall cfg ok fuel HubCall.handleFailure now t info

/-- AgentHub._restart_agent on one record. -/
def restartAgent (cfg : HubCfg) (ok : Nat → Bool) (fuel now t : Nat)
    (info : AgentInfo) : AgentInfo × Nat :=
  hubCall cfg ok fuel HubCall.restart now t info

/-- AgentHub._register_agent on one record: install a fresh initializing
record and immediately transition it to ready. -/
def registerAgent (cfg : HubCfg) (ok : Nat → Bool) (fuel now t : Nat) :
    AgentInfo × Nat :=
  updateAgentState cfg ok fuel now t AgentState.ready
    ⟨AgentState.initializing, now, 0, 0⟩

/-- The lifecycle operations that reach one agent record from outside:
registration, an error signal (an AGENT_ERROR event, an internal
exception, or a failed health check), a recovery event
(AGENT_RECOVERED), and a restart attempt. -/
inductive HubOp where
  | register (now : Nat)
  | errorSignal (now : Nat)
  | recover (now : Nat)
  | restart (now : Nat)
deriving DecidableEq

/-- Apply one lifecycle operation to an agent record paired with the
current reconstruction-outcome index. -/
def applyHubOp (cfg : HubCfg) (ok : Nat → Bool) (fuel : Nat) :
    HubOp → AgentInfo × Nat → AgentInfo × Nat
  | HubOp.register now, (_, t) => registerAgent cfg ok fuel now t
  | HubOp.errorSignal now, (info, t) =>
      updateAgentState cfg ok fuel now t AgentState.error info
  | HubOp.recover now, (info, t) =>
      updateAgentState cfg ok fuel now t AgentState.ready info
  | HubOp.restart now, (info, t) => restartAgent cfg ok fuel now t info

/-! ## Association list lemmas -/

theorem assocLookup_set_self {κ α : Type} [DecidableEq κ] (l : List (κ × α)) (k : κ) (v : α) :
    assocLookup (assocSet l k v) k = some v := by
  induction l with
  | nil => simp [assocSet, assocLookup]
  | cons kv rest ih =>
      obtain ⟨k0, w⟩ := kv
      by_cases hk : k0 = k
      · simp [assocSet, assocLookup, hk]
      · simp [assocSet, assocLookup, hk, ih]

theorem assocLookup_set_ne {κ α : Type} [DecidableEq κ] (l : List (κ × α)) (k k' : κ) (v : α)
    (h : k' ≠ k) : assocLookup (assocSet l k v) k' = assocLookup l k' := by
  induction l with
  | nil => simp [assocSet, assocLookup, Ne.symm h]
  | cons kv rest ih =>
      obtain ⟨k0, w⟩ := kv
      by_cases hk : k0 = k
      · subst hk
        simp [assocSet, assocLookup, Ne.symm h]
      · simp [assocSet, assocLookup, hk, ih]

theorem assocLookup_delete_ne {κ α : Type} [DecidableEq κ] (l : List (κ × α)) (k k' : κ)
    (h : k' ≠ k) : assocLookup (assocDelete l k) k' = assocLookup l k' := by
  induction l with
  | nil => simp [assocDelete, assocLookup]
  | cons kv rest ih =>
      obtain ⟨k0, w⟩ := kv
      by_cases hk : k0 = k
      · subst hk
        simp [assocDelete, assocLookup, Ne.symm h]
      · simp [assocDelete, assocLookup, hk, ih]

theorem assocLookup_eq_none_iff {κ α : Type} [DecidableEq κ] (l : List (κ × α)) (k : κ) :
    assocLookup l k = none ↔ k ∉ l.map Prod.fst := by
  induction l with
  | nil => simp [assocLookup]
  | cons kv rest ih =>
      obtain ⟨k0, w⟩ := kv
      by_cases hk : k0 = k
      · simp [assocLookup, hk]
      · simp [assocLookup, hk, ih, Ne.symm hk]

theorem assocLookup_delete_self {κ α : Type} [DecidableEq κ] (l : List (κ × α)) (k : κ)
    (hnd : (l.map Prod.fst).Nodup) : assocLookup (assocDelete l k) k = none := by
  induction l with
  | nil => simp [assocDelete, assocLookup]
  | cons kv rest ih =>
      obtain ⟨k0, w⟩ := kv
      simp only [List.map_cons, List.nodup_cons] at hnd
      by_cases hk : k0 = k
      · subst hk
        simpa [assocDelete, assocLookup, assocLookup_eq_none_iff] using hnd.1
      · simp [assocDelete, assocLookup, hk, ih hnd.2]

theorem assocLookup_mem {κ α : Type} [DecidableEq κ] {l : List (κ × α)} {k : κ} {v : α}
    (h : assocLookup l k = some v) : (k, v) ∈ l := by
  induction l with
  | nil => simp [assocLookup] at h
  | cons kv rest ih =>
      obtain ⟨k0, w⟩ := kv
      by_cases hk : k0 = k
      · subst hk
        simp [assocLookup] at h
        simp [h]
      · simp [assocLookup, hk] at h
        exact List.mem_cons_of_mem _ (ih h)

theorem assocSet_of_lookup_none {κ α : Type} [DecidableEq κ] (l : List (κ × α)) (k : κ) (v : α)
    (h : assocLookup l k = none) : assocSet l k v = l ++ [(k, v)] := by
  induction l with
  | nil => simp [assocSet]
  | cons kv rest ih =>
      obtain ⟨k0, w⟩ := kv
      by_cases hk : k0 = k
      · simp [assocLookup, hk] at h
      · simp [assocLookup, hk] at h
        simp [assocSet, hk, ih h]

theorem assocLookup_values_injective {κ α : Type} [DecidableEq κ] {l : List (κ × α)}
    (hval : (l.map Prod.snd).Nodup) {k k' : κ} {v v' : α} (hk : k ≠ k')
    (h1 : assocLookup l k = some v) (h2 : assocLookup l k' = some v') : v ≠ v' := by
  induction l with
  | nil => simp [assocLookup] at h1
  | cons kv rest ih =>
      obtain ⟨k0, w⟩ := kv
      simp only [List.map_cons, List.nodup_cons] at hval
      by_cases e1 : k0 = k
      · subst e1
        have e2 : ¬ (k0 = k') := fun hh => hk hh
        simp [assocLookup] at h1
        simp [assocLookup, e2] at h2
        subst h1
        intro hvv
        exact hval.1 (hvv ▸ List.mem_map_of_mem Prod.snd (assocLookup_mem h2))
      · by_cases e2 : k0 = k'
        · subst e2
          simp [assocLookup, e1] at h1
          simp [assocLookup] at h2
          subst h2
          intro hvv
          exact hval.1 (hvv ▸ List.mem_map_of_mem Prod.snd (assocLookup_mem h1))
        · simp [assocLookup, e1] at h1
          simp [assocLookup, e2] at h2
          exact ih hval.2 h1 h2

/-! ## Event bus theorems -/

theorem runHandlers_eq_map {π : Type} (hrun : Nat → π → Except String Unit) (p : π) :
    ∀ hs : List Nat, runHandlers hrun hs p = hs.map fun h => (h, hrun h p)
  | [] => rfl
  | h :: rest => by
      cases hh : hrun h p with
      | ok u => simp [runHandlers, hh, runHandlers_eq_map hrun p rest]
      | error e => simp [runHandlers, hh, runHandlers_eq_map hrun p rest]

/-- C4: publish snapshots the subscriber list for the event type once,
invokes each handler of the snapshot in snapshot (registration) order,
catches any exception a handler raises so that every remaining handler
of the snapshot is still invoked, and returns normally to the publisher
with the subscriber table unchanged. -/
theorem publish_snapshots_and_isolates_handler_failures {π : Type}
    (hrun : Nat → π → Except String Unit) (bus : EventBus) (e : Event π) :
    publish hrun bus e =
      (bus, (snapshotHandlers bus e.eventType).map fun h => (h, hrun h e.payload)) ∧
    ∀ h ∈ snapshotHandlers bus e.eventType,
      (h, hrun h e.payload) ∈ (publish hrun bus e).2 := by
  constructor
  · simp [publish, runHandlers_eq_map]
  · intro h hmem
    have hlog : (publish hrun bus e).2 =
        (snapshotHandlers bus e.eventType).map fun h2 => (h2, hrun h2 e.payload) := by
      simp [publish, runHandlers_eq_map]
    rw [hlog]
    exact List.mem_map_of_mem _ hmem

/-- C9: publishing an event whose type has no subscribers returns
normally with an empty invocation log and leaves the subscriber table
unchanged. -/
theorem publish_without_subscribers_returns_normally {π : Type}
    (hrun : Nat → π → Except String Unit) (bus : EventBus) (ty : String) (p : π)
    (h : assocLookup bus.subscribers ty = none) :
    publish hrun bus ⟨ty, p⟩ = (bus, []) := by
  simp [publish, snapshotHandlers, h, runHandlers]

/-- Witness for C9 at a concrete empty bus. -/
theorem publish_without_subscribers_returns_normally_witness :
    publish (fun _ _ => Except.ok ()) ⟨[]⟩ ⟨"task_started", (0 : Nat)⟩ = (⟨[]⟩, []) :=
  publish_without_subscribers_returns_normally (fun _ _ => Except.ok ()) ⟨[]⟩
    "task_started" (0 : Nat) rfl

/-- C5: unsubscribe fails exactly when the event type has no subscribers
or the callback is not among them, leaving the table unchanged in that
case; on success it removes exactly one matching entry (the count of the
callback drops by one, all other counts and all other event types are
untouched) and deletes the event type entirely when its list becomes
empty. -/
theorem unsubscribe_not_found_or_removes_exactly_one (bus : EventBus) (ty : String)
    (cb : Nat) (hwf : BusWF bus) :
    ((unsubscribe bus ty cb).2.isSome ↔
      ∀ hs, assocLookup bus.subscribers ty = some hs → cb ∉ hs) ∧
    ((unsubscribe bus ty cb).2.isSome → (unsubscribe bus ty cb).1 = bus) ∧
    (∀ hs, assocLookup bus.subscribers ty = some hs → cb ∈ hs →
      (unsubscribe bus ty cb).2 = none ∧
      (hs.erase cb).count cb + 1 = hs.count cb ∧
      (∀ h2, h2 ≠ cb → (hs.erase cb).count h2 = hs.count h2) ∧
      (hs.erase cb = [] → assocLookup (unsubscribe bus ty cb).1.subscribers ty = none) ∧
      (hs.erase cb ≠ [] →
        assocLookup (unsubscribe bus ty cb).1.subscribers ty = some (hs.erase cb)) ∧
      (∀ ty2, ty2 ≠ ty →
        assocLookup (unsubscribe bus ty cb).1.subscribers ty2 =
          assocLookup bus.subscribers ty2)) := by
  refine ⟨?_, ?_, ?_⟩
  · cases hl : assocLookup bus.subscribers ty with
    | none => simp [unsubscribe, hl]
    | some hs =>
        by_cases hmem : cb ∈ hs
        · constructor
          · intro hsome
            by_cases he : hs.erase cb = [] <;>
              simp [unsubscribe, hl, hmem, he] at hsome
          · intro hall
            exact absurd hmem (hall hs rfl)
        · simp [unsubscribe, hl, hmem]
  · cases hl : assocLookup bus.subscribers ty with
    | none => intro _; simp [unsubscribe, hl]
    | some hs =>
        by_cases hmem : cb ∈ hs
        · intro hsome
          by_cases he : hs.erase cb = [] <;>
            simp [unsubscribe, hl, hmem, he] at hsome
        · intro _; simp [unsubscribe, hl, hmem]
  · intro hs hl hmem
    have hcount : 0 < hs.count cb := List.count_pos_iff.mpr hmem
    refine ⟨?_, ?_, ?_, ?_, ?_, ?_⟩
    · by_cases he : hs.erase cb = [] <;> simp [unsubscribe, hl, hmem, he]
    · have := List.count_erase_self cb hs
      omega
    · intro h2 h2ne
      exact List.count_erase_of_ne h2ne hs
    · intro he
      simp [unsubscribe, hl, hmem, he]
      exact assocLookup_delete_self bus.subscribers ty hwf
    · intro he
      simp [unsubscribe, hl, hmem, he]
      exact assocLookup_set_self bus.subscribers ty (hs.erase cb)
    · intro ty2 hty2
      by_cases he : hs.erase cb = []
      · simp [unsubscribe, hl, hmem, he]
        exact assocLookup_delete_ne bus.subscribers ty ty2 hty2
      · simp [unsubscribe, hl, hmem, he]
        exact assocLookup_set_ne bus.subscribers ty ty2 (hs.erase cb) hty2

/-- Witness for C5: on a concrete bus, unsubscribing a subscribed
callback succeeds, and unsubscribing a missing callback leaves the bus
unchanged. -/
theorem unsubscribe_not_found_or_removes_exactly_one_witness :
    (unsubscribe ⟨[("agent_error", [1, 2])]⟩ "agent_error" 1).2 = none ∧
    (unsubscribe ⟨[("agent_error", [3])]⟩ "agent_error" 1).1 = ⟨[("agent_error", [3])]⟩ := by
  constructor
  · exact ((unsubscribe_not_found_or_removes_exactly_one ⟨[("agent_error", [1, 2])]⟩
      "agent_error" 1 (by unfold BusWF; decide)).2.2 [1, 2] (by decide) (by decide)).1
  · exact (unsubscribe_not_found_or_removes_exactly_one ⟨[("agent_error", [3])]⟩
      "agent_error" 1 (by unfold BusWF; decide)).2.1 (by decide)

/-! ## Tool registry theorem -/

/-- C10: registering a tool under a name that is already present raises
a ValueError and leaves the tool table unchanged; registering under a
fresh name appends exactly that one (name, tool) mapping. -/
theorem registerTool_duplicate_rejected_fresh_added (reg : ToolRegistry) (name : String)
    (tool : Nat) :
    ((assocLookup reg.tools name).isSome →
      registerTool reg name tool =
        (reg, some ("Tool " ++ name ++ " is already registered"))) ∧
    (assocLookup reg.tools name = none →
      registerTool reg name tool = (⟨reg.tools ++ [(name, tool)]⟩, none)) := by
  constructor
  · intro hsome
    simp [registerTool, hsome]
  · intro hnone
    simp [registerTool, hnone, assocSet_of_lookup_none reg.tools name tool hnone]

/-- Witness for C10 at a concrete registry holding one tool. -/
theorem registerTool_duplicate_rejected_fresh_added_witness :
    registerTool ⟨[("weather", 0)]⟩ "weather" 1 =
      (⟨[("weather", 0)]⟩, some ("Tool " ++ "weather" ++ " is already registered")) ∧
    registerTool ⟨[("weather", 0)]⟩ "clock" 1 = (⟨[("weather", 0), ("clock", 1)]⟩, none) := by
  constructor
  · exact (registerTool_duplicate_rejected_fresh_added ⟨[("weather", 0)]⟩ "weather" 1).1
      (by decide)
  · exact (registerTool_duplicate_rejected_fresh_added ⟨[("weather", 0)]⟩ "clock" 1).2
      (by decide)

/-! ## Pattern store theorems -/

/-- C6: recording a passed step and then optimizing a batch holding just
that step returns a one-step sequence rebuilt from the stored history
entry (its description, platform and device id match the entry), while
recording a failed step leaves the store unchanged (hence absent if the
fingerprint was never recorded). -/
theorem patternStore_roundtrip (mem : MemoryAgent) (step : UIStep) :
    (∃ e : HistoryEntry,
      assocLookup (storeStep mem step ⟨step, true⟩).history (stepKey step) = some e ∧
      optimizeSteps (storeStep mem step ⟨step, true⟩) [step] =
        [{ action := step.action, elementId := step.elementId,
           coordinates := step.coordinates, text := none,
           description := e.description, platform := e.platform,
           deviceId := e.deviceId }]) ∧
    storeStep mem step ⟨step, false⟩ = mem := by
  constructor
  · refine ⟨⟨step.description, step.platform, step.deviceId,
      ((assocLookup mem.history (stepKey step)).map HistoryEntry.successCount).getD 0 + 1,
      true⟩, ?_, ?_⟩
    · simp [storeStep, assocLookup_set_self]
    · simp [optimizeSteps, storeStep, assocLookup_set_self]
  · simp [storeStep]

/-- C8 counterexample: two steps whose (platform, device_id, action,
target) tuples differ — platform None versus platform "default", all
other fields equal — receive the same history key, so the fingerprint is
not injective on step identity. -/
theorem stepKey_collision_counterexample :
    stepKey { action := "click", elementId := some "btn", description := "tap",
              platform := none } =
      stepKey { action := "click", elementId := some "btn", description := "tap",
                platform := some "default" } ∧
    (none : Option String) ≠ some "default" := by
  constructor
  · rfl
  · decide

/-- C8 (amended): the step key is stable and deterministic — it depends
only on the (platform, device_id, action, element-or-coordinates) tuple,
so two steps with equal tuples always receive the same key — but it is
not injective: steps with distinct tuples can collide, since None and
"default" normalize alike and the separator can occur inside fields. -/
theorem stepKey_deterministic (s t : UIStep) (hp : s.platform = t.platform)
    (hd : s.deviceId = t.deviceId) (ha : s.action = t.action)
    (he : s.elementId = t.elementId) (hc : s.coordinates = t.coordinates) :
    stepKey s = stepKey t := by
  simp [stepKey, hp, hd, ha, he, hc]

/-- Witness for C8: two concrete steps equal on the fingerprint tuple but
with different descriptions and texts receive the same key. -/
theorem stepKey_deterministic_witness :
    stepKey { action := "click", elementId := some "btn", description := "first",
              platform := some "android", deviceId := some "A123" } =
      stepKey { action := "click", elementId := some "btn", description := "second",
                text := some "hello", platform := some "android",
                deviceId := some "A123" } :=
  stepKey_deterministic _ _ rfl rfl rfl rfl rfl

/-! ## Driver pool theorems -/

/-- The pre-registered-default branch of get_or_create_driver is
unreachable: it is guarded by the very lookup that just failed, so the
operation reduces to lookup-then-create. -/
theorem getOrCreateDriver_eq (pool : DriverPool) (platform deviceId : Option String) :
    getOrCreateDriver pool platform deviceId =
      match assocLookup pool.drivers (platform, deviceId) with
      | some d => (d, pool)
      | none => createDriver pool (platform, deviceId) := by
  unfold getOrCreateDriver
  cases hl : assocLookup pool.drivers (platform, deviceId) with
  | some d => simp [hl]
  | none =>
      by_cases hp : platform = none
      · by_cases hd : deviceId = none
        · subst hp; subst hd
          simp [hl]
        · simp [hl, hd]
      · simp [hl, hp]

theorem poolWF_getOrCreate (pool : DriverPool) (platform deviceId : Option String)
    (hwf : PoolWF pool) : PoolWF (getOrCreateDriver pool platform deviceId).2 := by
  rw [getOrCreateDriver_eq]
  cases hl : assocLookup pool.drivers (platform, deviceId) with
  | some d => exact hwf
  | none =>
      obtain ⟨hkeys, hvals, hbound⟩ := hwf
      have hset := assocSet_of_lookup_none pool.drivers (platform, deviceId) pool.nextId hl
      have hknotin : (platform, deviceId) ∉ pool.drivers.map Prod.fst :=
        (assocLookup_eq_none_iff pool.drivers (platform, deviceId)).mp hl
      have hvnotin : pool.nextId ∉ pool.drivers.map Prod.snd := by
        intro hmem
        obtain ⟨kv, hkv, hkveq⟩ := List.mem_map.mp hmem
        exact absurd (hkveq ▸ hbound kv hkv) (lt_irrefl pool.nextId)
      refine ⟨?_, ?_, ?_⟩
      · simp only [createDriver, hset, List.map_append, List.nodup_append, List.map_cons,
          List.map_nil]
        refine ⟨hkeys, List.nodup_singleton _, ?_⟩
        intro a ha hb
        simp only [List.mem_singleton] at hb
        subst hb
        exact hknotin ha
      · simp only [createDriver, hset, List.map_append, List.nodup_append, List.map_cons,
          List.map_nil]
        refine ⟨hvals, List.nodup_singleton _, ?_⟩
        intro a ha hb
        simp only [List.mem_singleton] at hb
        subst hb
        exact hvnotin ha
      · intro kv hkv
        simp only [createDriver, hset, List.mem_append, List.mem_singleton] at hkv
        rcases hkv with hkv | hkv
        · exact Nat.lt_succ_of_lt (hbound kv hkv)
        · simp [hkv, createDriver]

/-- C1: from any well-formed pool, get_or_create called twice with the
same key returns the identical handle (and pool) both times; calls with
two different keys return two distinct handles; the pool stays
well-formed — in particular its keys stay unique, so at most one handle
exists per distinct key — and no cached entry is ever evicted. -/
theorem driverPool_one_handle_per_key (pool : DriverPool) (p1 d1 p2 d2 : Option String)
    (hwf : PoolWF pool) :
    getOrCreateDriver (getOrCreateDriver pool p1 d1).2 p1 d1 =
      getOrCreateDriver pool p1 d1 ∧
    ((p1, d1) ≠ (p2, d2) →
      (getOrCreateDriver (getOrCreateDriver pool p1 d1).2 p2 d2).1 ≠
        (getOrCreateDriver pool p1 d1).1) ∧
    PoolWF (getOrCreateDriver pool p1 d1).2 ∧
    ∀ kv ∈ pool.drivers, kv ∈ (getOrCreateDriver pool p1 d1).2.drivers := by
  obtain ⟨hkeys, hvals, hbound⟩ := hwf
  refine ⟨?_, ?_, poolWF_getOrCreate pool p1 d1 ⟨hkeys, hvals, hbound⟩, ?_⟩
  · cases hl : assocLookup pool.drivers (p1, d1) with
    | some d =>
        have h1 : getOrCreateDriver pool p1 d1 = (d, pool) := by
          rw [getOrCreateDriver_eq, hl]
        rw [h1]
        exact h1
    | none =>
        have h1 : getOrCreateDriver pool p1 d1 = createDriver pool (p1, d1) := by
          rw [getOrCreateDriver_eq, hl]
        rw [h1]
        have h2 : assocLookup (createDriver pool (p1, d1)).2.drivers (p1, d1) =
            some pool.nextId := by
          simp only [createDriver]
          exact assocLookup_set_self _ _ _
        rw [getOrCreateDriver_eq, h2]
        rfl
  · intro hne
    cases hl : assocLookup pool.drivers (p1, d1) with
    | some d =>
        have h1 : getOrCreateDriver pool p1 d1 = (d, pool) := by
          rw [getOrCreateDriver_eq, hl]
        rw [h1]
        show (getOrCreateDriver pool p2 d2).1 ≠ d
        rw [getOrCreateDriver_eq]
        cases hl2 : assocLookup pool.drivers (p2, d2) with
        | some d2v =>
            simpa using (assocLookup_values_injective hvals hne hl hl2).symm
        | none =>
            have hdlt : d < pool.nextId := hbound _ (assocLookup_mem hl)
            simpa [createDriver] using Nat.ne_of_gt hdlt
    | none =>
        have h1 : getOrCreateDriver pool p1 d1 = createDriver pool (p1, d1) := by
          rw [getOrCreateDriver_eq, hl]
        rw [h1]
        show (getOrCreateDriver (createDriver pool (p1, d1)).2 p2 d2).1 ≠
          (createDriver pool (p1, d1)).1
        rw [getOrCreateDriver_eq]
        have h2 : assocLookup (createDriver pool (p1, d1)).2.drivers (p2, d2) =
            assocLookup pool.drivers (p2, d2) := by
          simp only [createDriver]
          exact assocLookup_set_ne pool.drivers (p1, d1) (p2, d2) pool.nextId
            fun hh => hne hh.symm
        rw [h2]
        cases hl3 : assocLookup pool.drivers (p2, d2) with
        | some d2v =>
            have hdlt : d2v < pool.nextId := hbound _ (assocLookup_mem hl3)
            simpa [createDriver] using Nat.ne_of_lt hdlt
        | none =>
            simp only [createDriver]
            omega
  · intro kv hkv
    rw [getOrCreateDriver_eq]
    cases hl : assocLookup pool.drivers (p1, d1) with
    | some d => exact hkv
    | none =>
        simp only [createDriver,
          assocSet_of_lookup_none pool.drivers (p1, d1) pool.nextId hl, List.mem_append]
        exact Or.inl hkv

/-- Witness for C1 on a concrete empty pool and two concrete keys. -/
theorem driverPool_one_handle_per_key_witness :
    getOrCreateDriver (getOrCreateDriver ⟨[], 0⟩ (some "android") (some "A123")).2
        (some "android") (some "A123") =
      getOrCreateDriver ⟨[], 0⟩ (some "android") (some "A123") ∧
    (getOrCreateDriver (getOrCreateDriver ⟨[], 0⟩ (some "android") (some "A123")).2
        (some "ios") (some "B456")).1 ≠
      (getOrCreateDriver ⟨[], 0⟩ (some "android") (some "A123")).1 := by
  have h := driverPool_one_handle_per_key ⟨[], 0⟩ (some "android") (some "A123")
    (some "ios") (some "B456") (by unfold PoolWF; decide)
  exact ⟨h.1, h.2.1 (by decide)⟩

/-! ## Step-ordering validation theorems -/

theorem authScan_true : ∀ (l : List LlmStep) (i : Nat), authScan l true i = none
  | [], _ => rfl
  | s :: rest, i => by
      by_cases hlog : s.action = "login"
      · simp [authScan, hlog, authScan_true rest (i + 1)]
      · simp [authScan, hlog, authScan_true rest (i + 1)]

theorem offendingAt_zero (s : LlmStep) (rest : List LlmStep) :
    OffendingAt (s :: rest) 0 ↔ s.action ∈ actionsRequiringAuth := by
  unfold OffendingAt
  simp

theorem offendingAt_succ (s : LlmStep) (rest : List LlmStep) (k : Nat) :
    OffendingAt (s :: rest) (k + 1) ↔ s.action ≠ "login" ∧ OffendingAt rest k := by
  unfold OffendingAt
  constructor
  · rintro ⟨⟨t, ht, hta⟩, hall⟩
    refine ⟨hall 0 (Nat.succ_pos k) s (by simp), ⟨⟨t, by simpa using ht, hta⟩, ?_⟩⟩
    intro j hj t2 ht2
    exact hall (j + 1) (Nat.succ_lt_succ hj) t2 (by simpa using ht2)
  · rintro ⟨hs, ⟨t, ht, hta⟩, hall⟩
    refine ⟨⟨t, by simpa using ht, hta⟩, ?_⟩
    intro j hj t2 ht2
    cases j with
    | zero =>
        simp only [List.getElem?_cons_zero, Option.some.injEq] at ht2
        subst ht2
        exact hs
    | succ j2 =>
        exact hall j2 (Nat.lt_of_succ_lt_succ hj) t2 (by simpa using ht2)

theorem authScan_false_none_iff : ∀ (l : List LlmStep) (i : Nat),
    authScan l false i = none ↔ ∀ k, ¬ OffendingAt l k
  | [], i => by
      constructor
      · intro _ k hk
        obtain ⟨⟨t, ht, _⟩, _⟩ := hk
        simp at ht
      · intro _
        rfl
  | s :: rest, i => by
      by_cases hlog : s.action = "login"
      · constructor
        · intro _ k hk
          cases k with
          | zero =>
              rw [offendingAt_zero, hlog] at hk
              exact absurd hk (by decide)
          | succ k2 =>
              rw [offendingAt_succ] at hk
              exact hk.1 hlog
        · intro _
          simp [authScan, hlog, authScan_true]
      · by_cases hmem : s.action ∈ actionsRequiringAuth
        · constructor
          · intro h
            simp [authScan, hlog, hmem] at h
          · intro hall
            exact absurd ((offendingAt_zero s rest).mpr hmem) (hall 0)
        · have hstep : authScan (s :: rest) false i = authScan rest false (i + 1) := by
            simp [authScan, hlog, hmem]
          rw [hstep, authScan_false_none_iff rest (i + 1)]
          constructor
          · intro hall k hk
            cases k with
            | zero => exact hmem ((offendingAt_zero s rest).mp hk)
            | succ k2 => exact hall k2 ((offendingAt_succ s rest k2).mp hk).2
          · intro hall k hk
            exact hall (k + 1) ((offendingAt_succ s rest k).mpr ⟨hlog, hk⟩)

theorem authScan_false_some : ∀ (l : List LlmStep) (i j : Nat),
    authScan l false i = some j →
    i ≤ j ∧ OffendingAt l (j - i) ∧ ∀ m, m < j - i → ¬ OffendingAt l m
  | [], i, j => by
      intro h
      simp [authScan] at h
  | s :: rest, i, j => by
      intro h
      by_cases hlog : s.action = "login"
      · rw [show authScan (s :: rest) false i = authScan rest true (i + 1) by
          simp [authScan, hlog]] at h
        rw [authScan_true] at h
        cases h
      · by_cases hmem : s.action ∈ actionsRequiringAuth
        · have hj : j = i := by
            rw [show authScan (s :: rest) false i = some i by
              simp [authScan, hlog, hmem]] at h
            exact (Option.some.injEq _ _ ▸ h).symm
          subst hj
          refine ⟨Nat.le_refl j, ?_, ?_⟩
          · simpa [Nat.sub_self] using (offendingAt_zero s rest).mpr hmem
          · intro m hm
            exact absurd hm (by omega)
        · rw [show authScan (s :: rest) false i = authScan rest false (i + 1) by
            simp [authScan, hlog, hmem]] at h
          obtain ⟨hle, hoff, hmin⟩ := authScan_false_some rest (i + 1) j h
          refine ⟨by omega, ?_, ?_⟩
          · have hsub : j - i = (j - (i + 1)) + 1 := by omega
            rw [hsub, offendingAt_succ]
            exact ⟨hlog, hoff⟩
          · intro m hm
            cases m with
            | zero =>
                rw [offendingAt_zero]
                exact hmem
            | succ m2 =>
                rw [offendingAt_succ]
                rintro ⟨_, hoff2⟩
                exact hmin m2 (by omega) hoff2

/-- C7: if some step of a validated batch has an action in the
requires-prior-authentication set and no step before it is a login, the
ordering check fails and names the index of an offending step (the first
one); inserting a login step in front of the named step makes the same
batch pass the check. -/
theorem authOrdering_rejects_then_accepts_with_login (steps : List LlmStep) :
    (∀ i, OffendingAt steps i →
      ∃ j, checkAuthOrder steps = some j ∧ OffendingAt steps j ∧ j ≤ i) ∧
    (∀ j, checkAuthOrder steps = some j → ∀ ls : LlmStep, ls.action = "login" →
      checkAuthOrder (steps.take j ++ ls :: steps.drop j) = none) := by
  constructor
  · intro i hoff
    cases hscan : checkAuthOrder steps with
    | none =>
        exact absurd hoff ((authScan_false_none_iff steps 0).mp hscan i)
    | some j =>
        obtain ⟨_, hoffj, hmin⟩ := authScan_false_some steps 0 j hscan
        rw [Nat.sub_zero] at hoffj
        refine ⟨j, rfl, hoffj, ?_⟩
        by_contra hlt
        push_neg at hlt
        exact hmin i (by omega) hoff
  · intro j hscan ls hls
    obtain ⟨_, hoffj, hmin⟩ := authScan_false_some steps 0 j hscan
    rw [Nat.sub_zero] at hoffj
    simp only [Nat.sub_zero] at hmin
    obtain ⟨⟨t0, ht0, _⟩, _⟩ := hoffj
    have hjlen : j < steps.length := by
      by_contra hge
      rw [List.getElem?_eq_none (by omega)] at ht0
      cases ht0
    have htake : (steps.take j).length = j := by
      rw [List.length_take]
      omega
    have hF1 : ∀ m, m < j → (steps.take j ++ ls :: steps.drop j)[m]? = steps[m]? := by
      intro m hm
      rw [List.getElem?_append_left (by omega), List.getElem?_take_of_lt hm]
    have hF2 : (steps.take j ++ ls :: steps.drop j)[j]? = some ls := by
      rw [List.getElem?_append_right (by omega), htake, Nat.sub_self]
      simp
    rw [checkAuthOrder, authScan_false_none_iff]
    intro k hk
    obtain ⟨⟨t, ht, hta⟩, hall⟩ := hk
    rcases lt_trichotomy k j with hkj | hkj | hkj
    · refine hmin k hkj ⟨⟨t, ?_, hta⟩, ?_⟩
      · rw [← hF1 k hkj]
        exact ht
      · intro m hm t2 ht2
        exact hall m hm t2 (by rw [hF1 m (lt_trans hm hkj)]; exact ht2)
    · subst hkj
      rw [hF2, Option.some.injEq] at ht
      subst ht
      rw [hls] at hta
      exact absurd hta (by decide)
    · exact hall j hkj ls hF2 hls

/-- Witness for C7: a batch with check_notifications before any login is
rejected at index zero; with a login step inserted first it passes. -/
theorem authOrdering_rejects_then_accepts_with_login_witness :
    (∃ j, checkAuthOrder [cnStep] = some j ∧ OffendingAt [cnStep] j ∧ j ≤ 0) ∧
    checkAuthOrder [loginStep, cnStep] = none := by
  constructor
  · exact (authOrdering_rejects_then_accepts_with_login [cnStep]).1 0
      ⟨⟨cnStep, rfl, by decide⟩, fun k hk => absurd hk (Nat.not_lt_zero k)⟩
  · exact (authOrdering_rejects_then_accepts_with_login [cnStep]).2 0 rfl loginStep rfl

/-! ## Agent lifecycle hub theorems -/

/-- A state update to anything but error performs no failure handling: it
only sets the state and refreshes the heartbeat. -/
theorem hubCall_update_not_error (cfg : HubCfg) (ok : Nat → Bool) (fuel now t : Nat)
    (st : AgentState) (info : AgentInfo) (hst : st ≠ AgentState.error) (hfuel : 1 ≤ fuel) :
    hubCall cfg ok fuel (HubCall.update st) now t info =
      ({ info with state := st, lastHeartbeat := now }, t) := by
  cases fuel with
  | zero => exact absurd hfuel (by omega)
  | succ f => simp [hubCall, hst]

/-- A state update to anything but error never changes the retry count,
whatever the fuel. -/
theorem hubCall_update_retry_fixed (cfg : HubCfg) (ok : Nat → Bool) (fuel now t : Nat)
    (st : AgentState) (info : AgentInfo) (hst : st ≠ AgentState.error) :
    (hubCall cfg ok fuel (HubCall.update st) now t info).1.retryCount =
      info.retryCount := by
  cases fuel with
  | zero => rfl
  | succ f => simp [hubCall, hst]

/-- Through any of the hub methods, the retry count of the resulting
record either dominates the entry value or has been reset to zero by a
re-registration. -/
theorem hubCall_retry_monotone_or_reset (cfg : HubCfg) (ok : Nat → Bool) :
    ∀ (fuel : Nat) (call : HubCall) (now t : Nat) (info : AgentInfo),
      info.retryCount ≤ (hubCall cfg ok fuel call now t info).1.retryCount ∨
      (hubCall cfg ok fuel call now t info).1.retryCount = 0 := by
  intro fuel
  induction fuel with
  | zero => intro call now t info; exact Or.inl (Nat.le_refl _)
  | succ f ih =>
      intro call now t info
      cases call with
      | update st =>
          by_cases hst : st = AgentState.error
          · subst hst
            by_cases hthr : cfg.errorThreshold ≤ info.errorCount + 1
            · rw [show hubCall cfg ok (f + 1) (HubCall.update AgentState.error) now t info =
                  hubCall cfg ok f HubCall.handleFailure now t (errorBump now info) by
                simp [hubCall, errorBump, hthr]]
              exact ih HubCall.handleFailure now t (errorBump now info)
            · rw [show hubCall cfg ok (f + 1) (HubCall.update AgentState.error) now t info =
                  (errorBump now info, t) by
                simp [hubCall, errorBump, hthr]]
              exact Or.inl (Nat.le_refl _)
          · rw [hubCall_update_not_error cfg ok (f + 1) now t st info hst (by omega)]
            exact Or.inl (Nat.le_refl _)
      | handleFailure =>
          by_cases hlt : info.retryCount < cfg.maxRetries
          · rw [show hubCall cfg ok (f + 1) HubCall.handleFailure now t info =
                hubCall cfg ok f HubCall.restart now t
                  { info with retryCount := info.retryCount + 1 } by
              simp [hubCall, hlt]]
            rcases ih HubCall.restart now t { info with retryCount := info.retryCount + 1 }
              with hle | hzero
            · exact Or.inl (le_trans (Nat.le_succ _) hle)
            · exact Or.inr hzero
          · rw [show hubCall cfg ok (f + 1) HubCall.handleFailure now t info =
                hubCall cfg ok f (HubCall.update AgentState.shutdown) now t info by
              simp [hubCall, hlt]]
            exact ih (HubCall.update AgentState.shutdown) now t info
      | restart =>
          by_cases hok : ok t = true
          · refine Or.inr ?_
            have hstep : hubCall cfg ok (f + 1) HubCall.restart now t info =
                hubCall cfg ok f (HubCall.update AgentState.ready) now
                  (hubCall cfg ok f (HubCall.update AgentState.ready) now (t + 1)
                    ⟨AgentState.initializing, now, 0, 0⟩).2
                  { (hubCall cfg ok f (HubCall.update AgentState.ready) now (t + 1)
                      ⟨AgentState.initializing, now, 0, 0⟩).1 with errorCount := 0 } := by
              simp [hubCall, hok]
            rw [hstep]
            rw [hubCall_update_retry_fixed cfg ok f now _ AgentState.ready _ (by decide)]
            show (hubCall cfg ok f (HubCall.update AgentState.ready) now (t + 1)
              ⟨AgentState.initializing, now, 0, 0⟩).1.retryCount = 0
            rw [hubCall_update_retry_fixed cfg ok f now (t + 1) AgentState.ready _ (by decide)]
          · rw [show hubCall cfg ok (f + 1) HubCall.restart now t info =
                hubCall cfg ok f (HubCall.update AgentState.error) now (t + 1) info by
              simp [hubCall, hok]]
            exact ih (HubCall.update AgentState.error) now (t + 1) info

/-- C2 counterexample: a successful restart attempt taken on a record
with retry count one (exactly the state _restart_agent sees after
_handle_agent_failure has incremented the counter for its first attempt)
re-registers the agent and resets retry_count from one to zero, with the
record never in shutdown, so retry_count decreases before any shutdown
is reached. -/
theorem retryCount_decrease_counterexample :
    (restartAgent ⟨1, 3⟩ (fun _ => true) 5 7 0 ⟨AgentState.error, 0, 1, 1⟩).1.retryCount <
      (⟨AgentState.error, 0, 1, 1⟩ : AgentInfo).retryCount ∧
    (⟨AgentState.error, 0, 1, 1⟩ : AgentInfo).state ≠ AgentState.shutdown ∧
    (restartAgent ⟨1, 3⟩ (fun _ => true) 5 7 0 ⟨AgentState.error, 0, 1, 1⟩).1.state ≠
      AgentState.shutdown := by decide

/-- C2 (amended): across every lifecycle operation (register, error
signal, recovery, restart attempt) the record's retry_count never
decreases, except that a successful restart re-registers the agent and
thereby resets retry_count (with error_count) to zero: after any
operation the retry count either dominates its previous value or is
exactly zero. -/
theorem retryCount_monotone_except_reregistration (cfg : HubCfg) (ok : Nat → Bool)
    (fuel : Nat) (op : HubOp) (s : AgentInfo × Nat) :
    s.1.retryCount ≤ (applyHubOp cfg ok fuel op s).1.retryCount ∨
    (applyHubOp cfg ok fuel op s).1.retryCount = 0 := by
  obtain ⟨info, t⟩ := s
  cases op with
  | register now =>
      refine Or.inr ?_
      show (hubCall cfg ok fuel (HubCall.update AgentState.ready) now t
        ⟨AgentState.initializing, now, 0, 0⟩).1.retryCount = 0
      rw [hubCall_update_retry_fixed cfg ok fuel now t AgentState.ready _ (by decide)]
  | errorSignal now =>
      exact hubCall_retry_monotone_or_reset cfg ok fuel (HubCall.update AgentState.error)
        now t info
  | recover now =>
      exact hubCall_retry_monotone_or_reset cfg ok fuel (HubCall.update AgentState.ready)
        now t info
  | restart now =>
      exact hubCall_retry_monotone_or_reset cfg ok fuel HubCall.restart now t info

/-- The failure handler entered with the retry budget exhausted goes
straight to shutdown, touching neither counter and consuming no restart
outcome. -/
theorem handleFailure_shutdown_of_max (cfg : HubCfg) (ok : Nat → Bool) (fuel now t : Nat)
    (info : AgentInfo) (hfuel : 2 ≤ fuel) (hmax : cfg.maxRetries ≤ info.retryCount) :
    handleAgentFailure cfg ok fuel now t info =
      ({ info with state := AgentState.shutdown, lastHeartbeat := now }, t) := by
  obtain ⟨f, rfl⟩ : ∃ f, fuel = f + 2 := ⟨fuel - 2, by omega⟩
  rw [show handleAgentFailure cfg ok (f + 2) now t info =
      hubCall cfg ok (f + 1) (HubCall.update AgentState.shutdown) now t info by
    simp [handleAgentFailure, hubCall, Nat.not_lt.mpr hmax]]
  exact hubCall_update_not_error cfg ok (f + 1) now t AgentState.shutdown info
    (by decide) (by omega)

/-- C3 counterexample: a record sitting in the terminal shutdown state
moves back to ready when the hub processes an agent-recovered event
(_update_agent_state has no guard on the shutdown state), so a further
state transition does occur after shutdown. -/
theorem shutdown_not_terminal_counterexample :
    (updateAgentState ⟨3, 3⟩ (fun _ => true) 3 9 0 AgentState.ready
      ⟨AgentState.shutdown, 0, 5, 3⟩).1.state = AgentState.ready ∧
    AgentState.ready ≠ AgentState.shutdown := by decide

/-- C3 (amended): the hub sets shutdown exactly when the failure handler
runs while retry_count has reached the configured maximum — it then
transitions immediately without attempting a restart, while below the
maximum it increments retry_count and attempts a restart instead; in
particular a restart attempt that fails while retry_count equals the
maximum (error count past the threshold) drives the record to shutdown.
However shutdown is not terminal: a recovery transition moves a shutdown
record back to ready. -/
theorem shutdown_guard_and_not_terminal (cfg : HubCfg) (ok : Nat → Bool) :
    (∀ fuel now t info, 2 ≤ fuel → cfg.maxRetries ≤ info.retryCount →
      handleAgentFailure cfg ok fuel now t info =
        ({ info with state := AgentState.shutdown, lastHeartbeat := now }, t)) ∧
    (∀ fuel now t info, info.retryCount < cfg.maxRetries →
      handleAgentFailure cfg ok (fuel + 1) now t info =
        restartAgent cfg ok fuel now t { info with retryCount := info.retryCount + 1 }) ∧
    (∀ fuel now t info, 4 ≤ fuel → info.retryCount = cfg.maxRetries →
      cfg.errorThreshold ≤ info.errorCount + 1 → ok t = false →
      (restartAgent cfg ok fuel now t info).1.state = AgentState.shutdown) ∧
    (∀ fuel now t info, 1 ≤ fuel → info.state = AgentState.shutdown →
      (updateAgentState cfg ok fuel now t AgentState.ready info).1.state =
        AgentState.ready) := by
  refine ⟨?_, ?_, ?_, ?_⟩
  · intro fuel now t info hfuel hmax
    exact handleFailure_shutdown_of_max cfg ok fuel now t info hfuel hmax
  · intro fuel now t info hlt
    simp [handleAgentFailure, restartAgent, hubCall, hlt]
  · intro fuel now t info hfuel hmax hthr hok
    obtain ⟨f, rfl⟩ : ∃ f, fuel = f + 4 := ⟨fuel - 4, by omega⟩
    rw [show restartAgent cfg ok (f + 4) now t info =
        hubCall cfg ok (f + 3) (HubCall.update AgentState.error) now (t + 1) info by
      simp [restartAgent, hubCall, hok]]
    rw [show hubCall cfg ok (f + 3) (HubCall.update AgentState.error) now (t + 1) info =
        handleAgentFailure cfg ok (f + 2) now (t + 1) (errorBump now info) by
      simp [hubCall, handleAgentFailure, errorBump, hthr]]
    rw [handleFailure_shutdown_of_max cfg ok (f + 2) now (t + 1) (errorBump now info)
      (by omega) (by simp [errorBump, hmax])]
  · intro fuel now t info hfuel hst
    rw [show updateAgentState cfg ok fuel now t AgentState.ready info =
        hubCall cfg ok fuel (HubCall.update AgentState.ready) now t info from rfl]
    rw [hubCall_update_not_error cfg ok fuel now t AgentState.ready info (by decide) hfuel]

/-- Witness for C3 at concrete records: immediate shutdown at the retry
maximum, shutdown after a failing restart at the maximum, and the
recovery transition out of shutdown. -/
theorem shutdown_guard_and_not_terminal_witness :
    handleAgentFailure ⟨1, 2⟩ (fun _ => false) 9 5 7 ⟨AgentState.error, 0, 3, 2⟩ =
      (⟨AgentState.shutdown, 5, 3, 2⟩, 7) ∧
    (restartAgent ⟨1, 2⟩ (fun _ => false) 9 5 0 ⟨AgentState.error, 0, 1, 2⟩).1.state =
      AgentState.shutdown ∧
    (updateAgentState ⟨1, 2⟩ (fun _ => false) 9 5 0 AgentState.ready
      ⟨AgentState.shutdown, 0, 3, 2⟩).1.state = AgentState.ready := by
  refine ⟨?_, ?_, ?_⟩
  · exact (shutdown_guard_and_not_terminal ⟨1, 2⟩ (fun _ => false)).1 9 5 7
      ⟨AgentState.error, 0, 3, 2⟩ (by omega) (by decide)
  · exact (shutdown_guard_and_not_terminal ⟨1, 2⟩ (fun _ => false)).2.2.1 9 5 0
      ⟨AgentState.error, 0, 1, 2⟩ (by omega) (by decide) (by decide) (by decide)
  · exact (shutdown_guard_and_not_terminal ⟨1, 2⟩ (fun _ => false)).2.2.2 9 5 0
      ⟨AgentState.shutdown, 0, 3, 2⟩ (by omega) (by decide)

end SleepyTesting
